import Mathlib

/-!
Verification development for the Math_Simple_Interpreter repository
(`src/parser.c`, `src/symbolTable.c`, `src/instruction.c`).

The embedding is a direct functional translation of the C sources:

* Numeric values (`mpfr_t` at 256-bit precision) are modelled by `MVal`:
  NaN, signed infinity, or an exact rational.  The model idealises the
  256-bit rounding away (every finite result appearing in a theorem below
  is exactly representable, so no theorem depends on rounding); signed
  zeros are collapsed to the single rational zero; results of `mpfr_sqrt`
  and `mpfr_pow` that are irrational (hence not expressible in this exact
  model, and not reached by any theorem in this file) are mapped to NaN.
  Rational arithmetic is spelled out on numerators and denominators via
  `mkRat`/`Rat.divInt` so that every definition evaluates inside the
  kernel.
* The MPFR library entry points used by `parser.c` (`mpfr_add`, `mpfr_sub`,
  `mpfr_mul`, `mpfr_div`, `mpfr_pow`, `mpfr_sqrt`, `mpfr_modf`,
  `mpfr_set_str`, `mpfr_zero_p`, `mpfr_cmp_d(..., 0) < 0`) are modelled
  from their documented IEEE-754-style semantics.
* The tokenizer, recursive-descent parser and evaluator are translated
  function by function from `parser.c`; the hash table from
  `symbolTable.c`.  Token buffers and AST arena bookkeeping have no
  observable effect on the values computed and are represented by plain
  lists and trees; the scratch `mpfr` pool is not modelled because each
  pool slot is written by exactly one node and read only by its immediate
  parent (the one aliasing write, by `mpfr_modf`, clobbers a slot that is
  never read again).
-/

set_option maxRecDepth 40000

namespace MathInterp

/-- Exact rational addition, written on numerators/denominators. -/
def qadd (a b : ℚ) : ℚ := mkRat (a.num * b.den + b.num * a.den) (a.den * b.den)

/-- Exact rational subtraction. -/
def qsub (a b : ℚ) : ℚ := mkRat (a.num * b.den - b.num * a.den) (a.den * b.den)

/-- Exact rational multiplication. -/
def qmul (a b : ℚ) : ℚ := mkRat (a.num * b.num) (a.den * b.den)

/-- Exact rational division (callers never pass a zero divisor). -/
def qdiv (a b : ℚ) : ℚ := Rat.divInt (a.num * b.den) (a.den * b.num)

/-- Exact rational power by a natural exponent. -/
def qpowNat (a : ℚ) (k : ℕ) : ℚ := mkRat (a.num ^ k) (a.den ^ k)

/-- Exact rational power by an integer exponent. -/
def qpowInt (a : ℚ) (z : ℤ) : ℚ :=
  if 0 ≤ z then qpowNat a z.toNat
  else Rat.divInt ((a.den : ℤ) ^ (-z).toNat) (a.num ^ (-z).toNat)

/-- Truncation of a rational toward zero, as MPFR's `modf` integral part. -/
def truncQ (q : ℚ) : ℚ :=
  mkRat
    (if 0 ≤ q.num then ((q.num.toNat / q.den : ℕ) : ℤ)
     else -(((-q.num).toNat / q.den : ℕ) : ℤ)) 1

/-- Exact `k`-th root of a natural number, when it exists. -/
def natNthRoot (k n : ℕ) : Option ℕ :=
  (List.range (n + 2)).find? fun r => r ^ k = n

/-- Exact rational square root when it exists (the only square roots any
theorem below takes are of perfect squares or of negative arguments). -/
def ratSqrt (q : ℚ) : Option ℚ :=
  match natNthRoot 2 q.num.toNat, natNthRoot 2 q.den with
  | some sn, some sd => some (mkRat sn sd)
  | _, _ => none

/-- Model of a 256-bit MPFR value: NaN, infinity (`true` = negative), or an
exact rational.  Signed zero is collapsed to `fin 0`. -/
inductive MVal where
  | nan : MVal
  | inf : Bool → MVal
  | fin : ℚ → MVal
deriving DecidableEq

/-- Model of `mpfr_add` with a rounding mode, modelled exactly (IEEE special cases). -/
def mpfr_add : MVal → MVal → MVal
  | .nan, _ => .nan
  | _, .nan => .nan
  | .inf s, .inf t => if s = t then .inf s else .nan
  | .inf s, .fin _ => .inf s
  | .fin _, .inf t => .inf t
  | .fin a, .fin b => .fin (qadd a b)

/-- Model of `mpfr_sub`, modelled exactly (IEEE special cases). -/
def mpfr_sub : MVal → MVal → MVal
  | .nan, _ => .nan
  | _, .nan => .nan
  | .inf s, .inf t => if s = t then .nan else .inf s
  | .inf s, .fin _ => .inf s
  | .fin _, .inf t => .inf (!t)
  | .fin a, .fin b => .fin (qsub a b)

/-- Model of `mpfr_mul`, modelled exactly (IEEE special cases, unsigned zero). -/
def mpfr_mul : MVal → MVal → MVal
  | .nan, _ => .nan
  | _, .nan => .nan
  | .inf s, .inf t => .inf (xor s t)
  | .inf s, .fin b => if b.num = 0 then .nan else .inf (xor s (decide (b.num < 0)))
  | .fin a, .inf t => if a.num = 0 then .nan else .inf (xor (decide (a.num < 0)) t)
  | .fin a, .fin b => .fin (qmul a b)

/-- Model of `mpfr_div`, modelled exactly (IEEE special cases, unsigned zero).  The
evaluator only calls it after a `mpfr_zero_p` test on the divisor. -/
def mpfr_div : MVal → MVal → MVal
  | .nan, _ => .nan
  | _, .nan => .nan
  | .inf _, .inf _ => .nan
  | .inf s, .fin b => .inf (xor s (decide (b.num < 0)))
  | .fin _, .inf _ => .fin 0
  | .fin a, .fin b =>
      if b.num = 0 then (if a.num = 0 then .nan else .inf (decide (a.num < 0)))
      else .fin (qdiv a b)

/-- Positive finite base raised to a finite non-integer exponent: exact when
the rational root exists, otherwise outside the exact model (NaN here; no
theorem below reaches this branch). -/
def powQ (a e : ℚ) : MVal :=
  match natNthRoot e.den a.num.toNat, natNthRoot e.den a.den with
  | some rn, some rd => .fin (qpowInt (mkRat rn rd) e.num)
  | _, _ => .nan

/-- Model of `mpfr_pow`, following the documented MPFR/IEEE-754 `pow` semantics:
`pow(x, 0) = 1` for every `x` (NaN included), `pow(1, y) = 1` for every `y`
(NaN included), and NaN otherwise as soon as an operand is NaN. -/
def mpfr_pow (x y : MVal) : MVal :=
  match y with
  | .fin e =>
      if e.num = 0 then .fin 1
      else
        match x with
        | .nan => .nan
        | .inf s =>
            if e.num < 0 then .fin 0
            else if s ∧ e.den = 1 ∧ e.num % 2 ≠ 0 then .inf true else .inf false
        | .fin a =>
            if a = 1 then .fin 1
            else if e.den = 1 then
              if a.num = 0 then (if e.num < 0 then .inf false else .fin 0)
              else .fin (qpowInt a e.num)
            else
              if a.num < 0 then .nan
              else if a.num = 0 then (if e.num < 0 then .inf false else .fin 0)
              else powQ a e
  | .nan => if x = .fin 1 then .fin 1 else .nan
  | .inf t =>
      if x = .fin 1 ∨ x = .fin (mkRat (-1) 1) then .fin 1
      else
        match x with
        | .nan => .nan
        | .inf _ => if t then .fin 0 else .inf false
        | .fin a =>
            if a.den < a.num.natAbs then (if t then .fin 0 else .inf false)
            else (if t then .inf false else .fin 0)

/-- Model of `mpfr_sqrt`: NaN for negative input, exact square root otherwise
(irrational roots are outside the exact model and unused by the theorems). -/
def mpfr_sqrt : MVal → MVal
  | .nan => .nan
  | .inf s => if s then .nan else .inf false
  | .fin a =>
      if a.num < 0 then .nan
      else match ratSqrt a with
        | some r => .fin r
        | none => .nan

/-- Model of `mpfr_modf iop fop op`: `iop` receives the integral part of `op`, `fop`
its fractional part.  The pair below is `(iop, fop)`. -/
def mpfr_modf : MVal → MVal × MVal
  | .nan => (.nan, .nan)
  | .inf s => (.inf s, .fin 0)
  | .fin q => (.fin (truncQ q), .fin (qsub q (truncQ q)))

/-- Model of `mpfr_zero_p`: true exactly on (finite) zero. -/
def mpfr_zero_p : MVal → Bool
  | .fin q => decide (q.num = 0)
  | _ => false

/-- The test `mpfr_cmp_d(v, 0) < 0` from the `TOK_SQUARE` case: `mpfr_cmp`
returns 0 on NaN (setting the erange flag), so NaN compares not-less. -/
def mpfr_cmp_lt_zero : MVal → Bool
  | .nan => false
  | .inf s => s
  | .fin a => decide (a.num < 0)

/-- Numeric value of a digit list, most significant first. -/
def digitsVal (ds : List Char) : ℕ :=
  ds.foldl (fun a c => 10 * a + (c.toNat - 48)) 0

/-- C `isdigit` on the characters reachable here. -/
def isDigitChar (c : Char) : Bool :=
  48 ≤ c.toNat ∧ c.toNat ≤ 57

/-- C `isspace` (default locale): space, \t, \n, \v, \f, \r. -/
def isSpaceChar (c : Char) : Bool :=
  c = ' ' ∨ c.toNat = 9 ∨ c.toNat = 10 ∨ c.toNat = 11 ∨ c.toNat = 12 ∨ c.toNat = 13

/-- The tokenizer's identifier lookup table: `isascii(c) && lookupTable[c]`,
where the table is seeded with `a`-`z`, `A`-`Z` and `_`. -/
def isIdentChar (c : Char) : Bool :=
  c.toNat < 128 ∧
    ((97 ≤ c.toNat ∧ c.toNat ≤ 122) ∨ (65 ≤ c.toNat ∧ c.toNat ≤ 90) ∨ c = '_')

/-- Model of `mpfr_set_str s 10 MPFR_RNDN` restricted to the lexeme shapes the
tokenizer can produce (an optional sign, digits, at most one `.`): `some`
exactly when the whole string is a valid base-10 numeral, in which case the
code keeps the parsed value; on `none` the code substitutes NaN.  MPFR
accepts only `.` as the decimal separator, so a `,` makes the string
invalid. -/
def mpfr_set_str (s : List Char) : Option ℚ :=
  let (neg, s1) : Bool × List Char :=
    match s with
    | '-' :: r => (true, r)
    | '+' :: r => (false, r)
    | _ => (false, s)
  let ip := s1.takeWhile isDigitChar
  let r1 := s1.dropWhile isDigitChar
  let fromParts (ip fp : List Char) : ℚ :=
    let n : ℤ := (digitsVal ip * 10 ^ fp.length + digitsVal fp : ℕ)
    mkRat (if neg then -n else n) (10 ^ fp.length)
  match r1 with
  | [] => if ip = [] then none else some (fromParts ip [])
  | '.' :: r2 =>
      let fp := r2.takeWhile isDigitChar
      if r2.dropWhile isDigitChar = [] ∧ (ip ≠ [] ∨ fp ≠ []) then
        some (fromParts ip fp)
      else none
  | _ => none

example : mpfr_set_str ['1', '.', '5'] = some (mkRat 3 2) := by decide
example : mpfr_set_str ['1', ',', '5'] = none := by decide
example : mpfr_set_str ['-'] = none := by decide
example : mpfr_set_str ['-', '7'] = some (mkRat (-7) 1) := by decide
example : mpfr_set_str ['-', '7'] = some (-7 : ℤ) := by decide
example : mpfr_pow .nan (.fin 0) = .fin 1 := by decide
example : mpfr_pow (.fin 2) (.fin 9) = .fin 512 := by decide
example : (mpfr_modf (.fin 3)).1 = .fin 3 := by decide
example : truncQ (mkRat 7 2) = 3 := by decide
example : truncQ (mkRat (-7) 2) = -3 := by decide

/-- The token kinds of `parser.h` (`TokenType`), in declaration order. -/
inductive TokenType where
  | TOK_NUM | TOK_VAR | TOK_ASSING | TOK_ADD | TOK_SUB
  | TOK_DIVIDE | TOK_MODULE | TOK_MULT | TOK_POWER | TOK_SQUARE
  | TOK_LPAR | TOK_RPAR | TOK_COMM | TOK_LCOR | TOK_RCOR
  | TOK_INVALID
deriving DecidableEq

/-- The numeric value of a `TokenType` in the C `enum`, used for the
`tok->type > TOK_VAR` comparison in `token_adjust_lexeme`. -/
def TokenType.toNat : TokenType → ℕ
  | .TOK_NUM => 0 | .TOK_VAR => 1 | .TOK_ASSING => 2 | .TOK_ADD => 3
  | .TOK_SUB => 4 | .TOK_DIVIDE => 5 | .TOK_MODULE => 6 | .TOK_MULT => 7
  | .TOK_POWER => 8 | .TOK_SQUARE => 9 | .TOK_LPAR => 10 | .TOK_RPAR => 11
  | .TOK_COMM => 12 | .TOK_LCOR => 13 | .TOK_RCOR => 14 | .TOK_INVALID => 15

/-- A `Token` of `parser.h`: kind, lexeme slice and the unary-minus flag.
The C struct stores the slice as a pointer plus a `len` field that always
equals the slice length; here the slice is the character list itself. -/
structure Token where
  type : TokenType
  lexeme : List Char
  negative : Bool
deriving DecidableEq

/-- The C `Token.len` field (always the length of the lexeme slice). -/
def Token.len (t : Token) : ℕ := t.lexeme.length

/-- Model of `token_adjust_lexeme`: for `TOK_NUM`/`TOK_VAR` tokens, prepend `-` when
the `negative` flag is set (the `snprintf` into `bufferNames` copies exactly
`len` lexeme characters after the optional sign); other kinds are returned
unchanged. -/
def token_adjust_lexeme (t : Token) : List Char :=
  if TokenType.toNat TokenType.TOK_VAR < TokenType.toNat t.type then t.lexeme
  else if t.negative then '-' :: t.lexeme else t.lexeme

/-- The digit-run scanner of `tokenize` (lines 135-141 of `parser.c`): after
the first digit, consume digits and at most one `.` or `,`; returns the
consumed characters and the remaining input.  The `Bool` is `isFloat`. -/
def scanNum : Bool → List Char → List Char × List Char
  | _, [] => ([], [])
  | isFloat, c :: rest =>
      if isDigitChar c then
        let p := scanNum isFloat rest
        (c :: p.1, p.2)
      else if !isFloat ∧ (c = '.' ∨ c = ',') then
        let p := scanNum true rest
        (c :: p.1, p.2)
      else ([], c :: rest)

/-- The condition under which `tokenize` treats `-` as a unary sign (lines
200-203 of `parser.c`): no token yet, or the previous token is not a
number, variable or closing parenthesis. -/
def minusIsUnary (acc : List Token) : Bool :=
  match acc.getLast? with
  | none => true
  | some t =>
      !(t.type = TokenType.TOK_NUM ∨ t.type = TokenType.TOK_RPAR ∨
        t.type = TokenType.TOK_VAR : Bool)

/-- The scanning loop of `tokenize` (lines 125-285 of `parser.c`), carrying
the tokens emitted so far; `none` models returning `false` (lex failure:
over-long lexeme or unrecognized character).  The C loop runs until the
line is exhausted; here a fuel argument makes the recursion structural, and
since every iteration consumes at least one character, fuel equal to the
number of remaining characters is always enough (`tokenize` passes one
more). -/
def tokenizeLoop : ℕ → List Char → List Token → Option (List Token)
  | _, [], acc => some acc
  | 0, _ :: _, _ => none
  | fuel + 1, c :: rest, acc =>
    if isSpaceChar c then tokenizeLoop fuel rest acc
    else if isDigitChar c then
      let p := scanNum false rest
      let lex := c :: p.1
      if 255 < lex.length then none
      else tokenizeLoop fuel p.2 (acc ++ [⟨.TOK_NUM, lex, false⟩])
    else if isIdentChar c then
      let lex := c :: rest.takeWhile isIdentChar
      let rest1 := rest.dropWhile isIdentChar
      if 255 < lex.length then none
      else if lex = ['s', 'q', 'r', 't'] then
        tokenizeLoop fuel rest1 (acc ++ [⟨.TOK_SQUARE, ['s', 'q', 'r', 't'], false⟩])
      else tokenizeLoop fuel rest1 (acc ++ [⟨.TOK_VAR, lex, false⟩])
    else if c = '=' then tokenizeLoop fuel rest (acc ++ [⟨.TOK_ASSING, ['='], false⟩])
    else if c = '+' then tokenizeLoop fuel rest (acc ++ [⟨.TOK_ADD, ['+'], false⟩])
    else if c = '-' then
      if minusIsUnary acc then
        let rest1 := rest.dropWhile (fun d => d = ' ')
        let ds := rest1.takeWhile isDigitChar
        let rest2 := rest1.dropWhile isDigitChar
        tokenizeLoop fuel rest2 (acc ++ [⟨.TOK_NUM, ds, true⟩])
      else tokenizeLoop fuel rest (acc ++ [⟨.TOK_SUB, ['-'], false⟩])
    else if c = '/' then tokenizeLoop fuel rest (acc ++ [⟨.TOK_DIVIDE, ['/'], false⟩])
    else if c = '*' then tokenizeLoop fuel rest (acc ++ [⟨.TOK_MULT, ['*'], false⟩])
    else if c = '(' then tokenizeLoop fuel rest (acc ++ [⟨.TOK_LPAR, ['('], false⟩])
    else if c = ')' then tokenizeLoop fuel rest (acc ++ [⟨.TOK_RPAR, [')'], false⟩])
    else if c = '[' then tokenizeLoop fuel rest (acc ++ [⟨.TOK_LCOR, ['['], false⟩])
    else if c = ']' then tokenizeLoop fuel rest (acc ++ [⟨.TOK_RCOR, [']'], false⟩])
    else if c = '%' then tokenizeLoop fuel rest (acc ++ [⟨.TOK_MODULE, ['%'], false⟩])
    else if c = '^' then tokenizeLoop fuel rest (acc ++ [⟨.TOK_POWER, ['^'], false⟩])
    else if c = ',' then tokenizeLoop fuel rest (acc ++ [⟨.TOK_COMM, [','], false⟩])
    else none

/-- Model of `tokenize` (line 114 of `parser.c`): reset the token buffer and scan the
whole line. -/
def tokenize (cs : List Char) : Option (List Token) :=
  tokenizeLoop (cs.length + 1) cs []

example :
    tokenize ("2^3^2".toList) =
      some [⟨.TOK_NUM, ['2'], false⟩, ⟨.TOK_POWER, ['^'], false⟩,
        ⟨.TOK_NUM, ['3'], false⟩, ⟨.TOK_POWER, ['^'], false⟩,
        ⟨.TOK_NUM, ['2'], false⟩] := by decide

example :
    tokenize ("-x".toList) =
      some [⟨.TOK_NUM, [], true⟩, ⟨.TOK_VAR, ['x'], false⟩] := by decide

example :
    tokenize ("1,5".toList) = some [⟨.TOK_NUM, ['1', ',', '5'], false⟩] := by decide

example : tokenize ("sqrt(-1)".toList) =
    some [⟨.TOK_SQUARE, ['s', 'q', 'r', 't'], false⟩, ⟨.TOK_LPAR, ['('], false⟩,
      ⟨.TOK_NUM, ['1'], true⟩, ⟨.TOK_RPAR, [')'], false⟩] := by decide

example : tokenize ("1$".toList) = none := by decide

/-- A `Symbol` of `symbolTable.h`: owned name copy, its length, and the
stored value (`mpfr_t` at 256 bits, exact in this model).  The chain link
is represented by the position in the bucket list. -/
structure Symbol where
  name : List Char
  len : ℕ
  num : MVal
deriving DecidableEq

/-- The `SymbolTable` of `symbolTable.h`: bucket array, `capacity`,
`count`. -/
structure SymbolTable where
  buckets : List (List Symbol)
  capacity : ℕ
  count : ℕ
deriving DecidableEq

/-- Model of `hash_string` (lines 12-24 of `symbolTable.c`): 32-bit FNV-1a over the
first `len` bytes (all names reaching it are ASCII, so the C `char`
sign-extension never fires). -/
def hash_string (s : List Char) (len : ℕ) : ℕ :=
  (s.take len).foldl (fun h c => (h ^^^ c.toNat) * 16777619 % 4294967296) 2166136261

/-- Model of `symbol_table_create`: capacity `SYMBOL_MAP_BASE_SIZE = 64`, empty
buckets, zero count. -/
def symbol_table_create : SymbolTable :=
  ⟨List.replicate 64 [], 64, 0⟩

/-- Model of `symbol_table_resize` (lines 176-216 of `symbolTable.c`): fresh bucket
array, every symbol rehashed bucket by bucket, each chain walked head to
tail with the symbol prepended to its new bucket; `count` unchanged. -/
def symbol_table_resize (t : SymbolTable) (newCap : ℕ) : SymbolTable :=
  let nb := t.buckets.foldl
    (fun bs chain =>
      chain.foldl
        (fun bs s =>
          let i := hash_string s.name s.len % newCap
          bs.set i (s :: bs.getD i [])) bs)
    (List.replicate newCap [])
  ⟨nb, newCap, t.count⟩

/-- The chain scan of `symbol_table_insert` (lines 242-263): find the first
symbol with matching length and name and overwrite its value in place;
`none` when the name is absent from the chain. -/
def updateChain (name : List Char) (len : ℕ) (v : MVal) :
    List Symbol → Option (List Symbol)
  | [] => none
  | s :: rest =>
      if s.len = len ∧ s.name = name then some ({ s with num := v } :: rest)
      else
        match updateChain name len v rest with
        | some rest' => some (s :: rest')
        | none => none

/-- Model of `symbol_table_insert` (lines 218-292 of `symbolTable.c`): resize first
when `count > capacity * 0.6` (the comparison `10 * count > 6 * capacity`
is exact for the capacities 64·2^k reachable here, where `capacity * 0.6`
is never an integer and the double rounding error cannot cross an
integer); then update in place if the name exists, else prepend a new
symbol to its bucket chain and increment `count`. -/
def symbol_table_insert (t : SymbolTable) (name : List Char) (num : MVal)
    (nameLen : ℕ) : SymbolTable :=
  let t := if 6 * t.capacity < 10 * t.count then symbol_table_resize t (t.capacity * 2) else t
  let idx := hash_string name nameLen % t.capacity
  let chain := t.buckets.getD idx []
  match updateChain name nameLen num chain with
  | some chain' => { t with buckets := t.buckets.set idx chain' }
  | none =>
      { t with buckets := t.buckets.set idx (⟨name, nameLen, num⟩ :: chain),
               count := t.count + 1 }

/-- The chain scan of `symbol_table_get` (lines 304-316). -/
def chainGet (name : List Char) (len : ℕ) : List Symbol → Option MVal
  | [] => none
  | s :: rest =>
      if s.len = len ∧ s.name = name then some s.num
      else chainGet name len rest

/-- Model of `symbol_table_get` (lines 294-322 of `symbolTable.c`): hash, walk the
bucket chain, return the stored value or absent; no mutation. -/
def symbol_table_get (t : SymbolTable) (name : List Char) (nameLen : ℕ) :
    Option MVal :=
  chainGet name nameLen (t.buckets.getD (hash_string name nameLen % t.capacity) [])

/-- Model of `symbol_table_empty` (lines 379-404 of `symbolTable.c`).  The C
function walks every bucket chain and frees each `Symbol` (heap effect
only): it never assigns to `buckets[i]`, `count` or `capacity`, so the
observable struct state is returned unchanged — the bucket pointers are
left dangling and `count` keeps its old value.  This is the faithful
translation; the freeing itself has no counterpart in a heap-less model. -/
def symbol_table_empty (t : SymbolTable) : SymbolTable := t

example : (symbol_table_insert symbol_table_create ['a'] (.fin 5) 1).count = 1 := by decide
example :
    symbol_table_get (symbol_table_insert symbol_table_create ['a'] (.fin 5) 1) ['a'] 1 =
      some (.fin 5) := by decide
example :
    symbol_table_get (symbol_table_insert symbol_table_create ['a'] (.fin 5) 1) ['b'] 1 =
      none := by decide
example :
    symbol_table_get
      (symbol_table_resize (symbol_table_insert symbol_table_create ['a'] (.fin 5) 1) 128)
      ['a'] 1 = some (.fin 5) := by decide

/-- An `ASTNode` of `parser.h`: a token plus `left`/`right` children, with
`nil` standing for a C `NULL` child pointer.  Node identity (the arena
index) has no observable effect on parsing or evaluation and is dropped. -/
inductive AST where
  | nil : AST
  | node : Token → AST → AST → AST
deriving DecidableEq

/-- Fuel that is always sufficient for the parser's recursion: the chain
`statement → expression → term → power → primary` descends five levels
before a token must be consumed, and every other recursive call first
consumes at least one token. -/
def pfuel (ts : List Token) : ℕ := 5 * ts.length + 10

mutual

/-- Model of `parse_primary` (lines 372-431 of `parser.c`): number and variable
leaves, parenthesised expressions, and `sqrt ( expression )`; every other
token kind (a bare `=` included) falls to the default branch and fails.
`none` models the C `NULL` return; the pair returns the remaining tokens
(the C parser advances `curr_tok`). -/
def parse_primary : ℕ → List Token → Option (AST × List Token)
  | 0, _ => none
  | _ + 1, [] => none
  | fuel + 1, t :: rest =>
    match t.type with
    | .TOK_NUM => some (.node t .nil .nil, rest)
    | .TOK_VAR => some (.node t .nil .nil, rest)
    | .TOK_LPAR =>
        match parse_expression fuel rest with
        | none => none
        | some (e, rest1) =>
            match rest1 with
            | t2 :: rest2 => if t2.type = TokenType.TOK_RPAR then some (e, rest2) else none
            | [] => none
    | .TOK_SQUARE =>
        match rest with
        | t2 :: rest2 =>
            if t2.type = TokenType.TOK_LPAR then
              match parse_expression fuel rest2 with
              | none => none
              | some (arg, rest3) =>
                  match rest3 with
                  | t3 :: rest4 =>
                      if t3.type = TokenType.TOK_RPAR then some (.node t arg .nil, rest4)
                      else none
                  | [] => none
            else none
        | [] => none
    | _ => none

/-- Model of `parse_power` (lines 433-453 of `parser.c`): right-associative via right
recursion into `parse_power` itself. -/
def parse_power : ℕ → List Token → Option (AST × List Token)
  | 0, _ => none
  | fuel + 1, ts =>
    match parse_primary fuel ts with
    | none => none
    | some (left, rest) =>
        match rest with
        | t :: rest1 =>
            if t.type = TokenType.TOK_POWER then
              match parse_power fuel rest1 with
              | none => none
              | some (right, rest2) => some (.node t left right, rest2)
            else some (left, rest)
        | [] => some (left, rest)

/-- The `while` loop of `parse_term` (lines 460-473 of `parser.c`),
left-associating `*`, `/`, `%`. -/
def parse_term_loop : ℕ → AST → List Token → Option (AST × List Token)
  | 0, _, _ => none
  | fuel + 1, left, ts =>
    match ts with
    | t :: rest =>
        if t.type = TokenType.TOK_MULT ∨ t.type = TokenType.TOK_DIVIDE ∨
            t.type = TokenType.TOK_MODULE then
          match parse_power fuel rest with
          | none => none
          | some (right, rest1) => parse_term_loop fuel (.node t left right) rest1
        else some (left, ts)
    | [] => some (left, ts)

/-- Model of `parse_term` (lines 455-478 of `parser.c`). -/
def parse_term : ℕ → List Token → Option (AST × List Token)
  | 0, _ => none
  | fuel + 1, ts =>
    match parse_power fuel ts with
    | none => none
    | some (left, rest) => parse_term_loop fuel left rest

/-- The `while` loop of `parse_expression` (lines 485-498 of `parser.c`),
left-associating `+`, `-`. -/
def parse_expression_loop : ℕ → AST → List Token → Option (AST × List Token)
  | 0, _, _ => none
  | fuel + 1, left, ts =>
    match ts with
    | t :: rest =>
        if t.type = TokenType.TOK_ADD ∨ t.type = TokenType.TOK_SUB then
          match parse_term fuel rest with
          | none => none
          | some (right, rest1) => parse_expression_loop fuel (.node t left right) rest1
        else some (left, ts)
    | [] => some (left, ts)

/-- Model of `parse_expression` (lines 480-503 of `parser.c`). -/
def parse_expression : ℕ → List Token → Option (AST × List Token)
  | 0, _ => none
  | fuel + 1, ts =>
    match parse_term fuel ts with
    | none => none
    | some (left, rest) => parse_expression_loop fuel left rest

end

/-- Model of `parse_statement` (lines 534-558 of `parser.c`): two-token lookahead —
a `TOK_VAR` immediately followed by `TOK_ASSING` starts an assignment
statement, anything else is parsed as a plain expression. -/
def parse_statement : ℕ → List Token → Option (AST × List Token)
  | 0, _ => none
  | fuel + 1, t1 :: t2 :: rest =>
      if t1.type = TokenType.TOK_VAR ∧ t2.type = TokenType.TOK_ASSING then
        match parse_expression fuel rest with
        | none => none
        | some (right, rest1) => some (.node t2 (.node t1 .nil .nil) right, rest1)
      else parse_expression fuel (t1 :: t2 :: rest)
  | fuel + 1, ts => parse_expression fuel ts

/-- Model of `parse` (lines 560-593 of `parser.c`): reset the cursors, make sure the
arena is large enough, parse one statement and return its root — without
requiring the token sequence to be fully consumed. -/
def parse (ts : List Token) : Option AST :=
  Option.map Prod.fst (parse_statement (pfuel ts) ts)

example :
    parse [⟨.TOK_NUM, ['2'], false⟩, ⟨.TOK_NUM, ['3'], false⟩] =
      some (.node ⟨.TOK_NUM, ['2'], false⟩ .nil .nil) := by decide

example :
    (tokenize ("a = (b = 3)".toList)).bind parse = none := by decide

example :
    (tokenize ("2^3^2".toList)).bind parse =
      some (.node ⟨.TOK_POWER, ['^'], false⟩
        (.node ⟨.TOK_NUM, ['2'], false⟩ .nil .nil)
        (.node ⟨.TOK_POWER, ['^'], false⟩
          (.node ⟨.TOK_NUM, ['3'], false⟩ .nil .nil)
          (.node ⟨.TOK_NUM, ['2'], false⟩ .nil .nil))) := by decide

/-- Model of `evaluate_node` (lines 595-736 of `parser.c`): post-order walk.  The
result is the computed value (`none` models the C `NULL` return for the
unsupported-token default branch or a `NULL` child dereference) together
with the symbol table, which assignment mutates.  Both children of a
binary node are evaluated before either `NULL` check fires, so the table
resulting from the right child is kept even on failure, exactly as in C.
The scratch-pool slot bookkeeping is omitted (see the header comment). -/
def evaluate_node : SymbolTable → AST → Option MVal × SymbolTable
  | st, .nil => (none, st)
  | st, .node tok l r =>
    match tok.type with
    | .TOK_NUM =>
        (some (match mpfr_set_str (token_adjust_lexeme tok) with
          | some q => .fin q
          | none => .nan), st)
    | .TOK_VAR =>
        (some (match symbol_table_get st (token_adjust_lexeme tok) tok.len with
          | some v => v
          | none => .nan), st)
    | .TOK_ADD =>
        let p1 := evaluate_node st l
        let p2 := evaluate_node p1.2 r
        (match p1.1, p2.1 with
          | some lv, some rv => some (mpfr_add lv rv)
          | _, _ => none, p2.2)
    | .TOK_SUB =>
        let p1 := evaluate_node st l
        let p2 := evaluate_node p1.2 r
        (match p1.1, p2.1 with
          | some lv, some rv => some (mpfr_sub lv rv)
          | _, _ => none, p2.2)
    | .TOK_DIVIDE =>
        let p1 := evaluate_node st l
        let p2 := evaluate_node p1.2 r
        (match p1.1, p2.1 with
          | some lv, some rv =>
              some (if mpfr_zero_p rv then .nan else mpfr_div lv rv)
          | _, _ => none, p2.2)
    | .TOK_MODULE =>
        let p1 := evaluate_node st l
        let p2 := evaluate_node p1.2 r
        (match p1.1, p2.1 with
          | some _, some rv =>
              some (if mpfr_zero_p rv then .nan else (mpfr_modf rv).1)
          | _, _ => none, p2.2)
    | .TOK_MULT =>
        let p1 := evaluate_node st l
        let p2 := evaluate_node p1.2 r
        (match p1.1, p2.1 with
          | some lv, some rv => some (mpfr_mul lv rv)
          | _, _ => none, p2.2)
    | .TOK_POWER =>
        let p1 := evaluate_node st l
        let p2 := evaluate_node p1.2 r
        (match p1.1, p2.1 with
          | some lv, some rv => some (mpfr_pow lv rv)
          | _, _ => none, p2.2)
    | .TOK_SQUARE =>
        let p1 := evaluate_node st l
        (match p1.1 with
          | some a => some (if mpfr_cmp_lt_zero a then .nan else mpfr_sqrt a)
          | none => none, p1.2)
    | .TOK_ASSING =>
        let p1 := evaluate_node st r
        (match p1.1 with
          | none => (none, p1.2)
          | some rv =>
              match l with
              | .node ltok _ _ =>
                  (some rv,
                   symbol_table_insert p1.2 (token_adjust_lexeme ltok) rv ltok.len)
              | .nil => (none, p1.2))
    | _ => (none, st)

/-- Model of `evaluate_expression` (lines 738-759 of `parser.c`): reset the scratch
pool, evaluate the root, copy the final value out. -/
def evaluate_expression (st : SymbolTable) (head : AST) : Option MVal × SymbolTable :=
  evaluate_node st head

/-- One full tokenize→parse→evaluate cycle on one input line against a
given symbol table (the contract the core exposes to the REPL loop). -/
def runLine (st : SymbolTable) (s : String) : Option (MVal × SymbolTable) :=
  match tokenize s.toList with
  | none => none
  | some toks =>
      match parse toks with
      | none => none
      | some ast =>
          match evaluate_expression st ast with
          | (some v, st1) => some (v, st1)
          | (none, _) => none

/-- Several consecutive input lines, threading the symbol table, returning
the last line's value and the final table. -/
def runLines (st : SymbolTable) : List String → Option (MVal × SymbolTable)
  | [] => none
  | [s] => runLine st s
  | s :: rest =>
      match runLine st s with
      | some (_, st1) => runLines st1 rest
      | none => none

/-- The value of one line evaluated against a fresh symbol table. -/
def runVal (s : String) : Option MVal :=
  Option.map Prod.fst (runLine symbol_table_create s)

example : runVal ("1/0") = some .nan := by decide
example : runVal ("1%0") = some .nan := by decide
example : runVal ("sqrt(-1)") = some .nan := by decide
example : runVal ("1 + (1/0)") = some .nan := by decide
example : runVal ("7 % 3") = some (.fin 3) := by decide
example : runVal ("2^3^2") = some (.fin 512) := by decide
example : runVal ("(2+3)*4") = some (.fin 20) := by decide
example : runVal ("sqrt(16) + 2") = some (.fin 6) := by decide
example : runVal ("(1/0)^0") = some (.fin 1) := by decide
example : runVal ("-x") = some .nan := by decide
example : runVal ("1,5") = some .nan := by decide
example : (runLines symbol_table_create ["a = 5", "a"]).map Prod.fst = some (.fin 5) := by decide
example :
    (runLines symbol_table_create ["a = 5", "a = a + 1", "a"]).map Prod.fst =
      some (.fin 6) := by decide

/-- The `i`-th distinct test variable name, `v00` to `v99`. -/
def vName (n : ℕ) : List Char :=
  ['v', Char.ofNat (48 + n / 10), Char.ofNat (48 + n % 10)]

/-- Insert the first `n` test names into a fresh table, name `vName i`
bound to the exact value `i`. -/
def insertManyV (n : ℕ) : SymbolTable :=
  (List.range n).foldl
    (fun t i => symbol_table_insert t (vName i) (.fin (mkRat i 1)) 3)
    symbol_table_create

example : (insertManyV 39).count = 39 ∧ (insertManyV 39).capacity = 64 := by decide
example : (insertManyV 40).capacity = 128 ∧ (insertManyV 40).count = 40 := by decide
example :
    ∀ i ∈ List.range 40,
      symbol_table_get (insertManyV 40) (vName i) 3 = some (.fin (mkRat i 1)) := by decide
example : ((List.range 40).map vName).Nodup := by decide

/-- Modelled from the spec: the numeric value denoted by a valid decimal
string (digits with at most one fractional separator, `.` and `,` read as
the decimal point with no distinction).  This is the specification side of
the round-trip claim C4 only; the code side is `mpfr_set_str`. -/
def decimal_value_spec (s : List Char) : Option ℚ :=
  let ip := s.takeWhile isDigitChar
  let r1 := s.dropWhile isDigitChar
  match r1 with
  | [] => if ip = [] then none else some (mkRat (digitsVal ip) 1)
  | sep :: r2 =>
      if sep = '.' ∨ sep = ',' then
        let fp := r2.takeWhile isDigitChar
        if r2.dropWhile isDigitChar = [] ∧ ip ≠ [] then
          some (mkRat (digitsVal ip * 10 ^ fp.length + digitsVal fp) (10 ^ fp.length))
        else none
      else none

/-- True when the first character after the skipped spaces is not a digit
(the situation of claim C10's unary minus). -/
def headNonDigit (cs : List Char) : Bool :=
  match (cs.dropWhile (fun d => d = ' ')).head? with
  | some c => !isDigitChar c
  | none => true

theorem unary_scan_stops (rest : List Char) (h : headNonDigit rest = true) :
    (rest.dropWhile (fun d => d = ' ')).takeWhile isDigitChar = [] ∧
    (rest.dropWhile (fun d => d = ' ')).dropWhile isDigitChar =
      rest.dropWhile (fun d => d = ' ') := by
  rcases hl : rest.dropWhile (fun d => d = ' ') with _ | ⟨c, t⟩
  · simp
  · have hc : isDigitChar c = false := by
      simp only [headNonDigit, hl, List.head?] at h
      cases hdc : isDigitChar c
      · rfl
      · rw [hdc] at h; exact absurd h (by decide)
    constructor
    · simp [List.takeWhile_cons, hc]
    · simp [List.dropWhile_cons, hc]

/-- C1.  The claim says a `Modulo` node with right operand `r ≠ 0` yields
the remainder of `l` by `r`: the code instead calls
`mpfr_modf(result, left, right)`, which stores the integer part of the
right operand in `result`, so `7 % 3` evaluates to `3`, not to the
remainder `1`.  The zero-divisor half of the claim does hold (`1%0` is
NaN). -/
theorem claim_C1 :
    runVal ("7 % 3") = some (MVal.fin 3) ∧
    some (MVal.fin 3) ≠ some (MVal.fin 1) ∧
    runVal ("1%0") = some MVal.nan := by decide

/-- C2.  The claim says clearing resets `count` to zero and makes every
name absent: `symbol_table_empty` only frees the symbols, leaving
`buckets` and `count` untouched, so after inserting `a = 5` and clearing,
`count` is still `1` and the struct still reaches `a` (in C, through a
dangling pointer).  Only the `capacity`-preservation part of the claim
holds. -/
theorem claim_C2 :
    (symbol_table_empty (symbol_table_insert symbol_table_create ['a'] (.fin 5) 1)).count
        = 1 ∧
    symbol_table_get
        (symbol_table_empty (symbol_table_insert symbol_table_create ['a'] (.fin 5) 1))
        ['a'] 1 = some (.fin 5) ∧
    (symbol_table_empty (symbol_table_insert symbol_table_create ['a'] (.fin 5) 1)).capacity
        = 64 := by decide

/-- C3, counterexample.  `1/0` does evaluate to NaN, but the arithmetic
node `(1/0)^0` — a Power node with a NaN operand — evaluates to `1`, not
NaN, refuting "any arithmetic combining a NaN operand yields NaN". -/
theorem claim_C3_counterexample :
    runVal ("1/0") = some MVal.nan ∧
    runVal ("(1/0)^0") = some (MVal.fin 1) ∧
    some (MVal.fin 1) ≠ some MVal.nan := by decide

/-- C3, amended.  `1/0`, `1%0` and `sqrt(-1)` evaluate successfully to
NaN; Add, Sub, Multiply and Divide nodes propagate a NaN operand to NaN;
a Power node with a NaN operand yields NaN except for the IEEE-754
exemptions `pow(x, 0) = 1` and `pow(1, y) = 1`; a Modulo node computes
the integer part of its (nonzero) right operand, so a NaN right operand
propagates but a NaN left operand does not. -/
theorem claim_C3_amended :
    runVal ("1/0") = some MVal.nan ∧
    runVal ("1%0") = some MVal.nan ∧
    runVal ("sqrt(-1)") = some MVal.nan ∧
    runVal ("1 + (1/0)") = some MVal.nan ∧
    (∀ x : MVal,
      mpfr_add MVal.nan x = MVal.nan ∧ mpfr_add x MVal.nan = MVal.nan ∧
      mpfr_sub MVal.nan x = MVal.nan ∧ mpfr_sub x MVal.nan = MVal.nan ∧
      mpfr_mul MVal.nan x = MVal.nan ∧ mpfr_mul x MVal.nan = MVal.nan) ∧
    (∀ x : MVal,
      (if mpfr_zero_p x then MVal.nan else mpfr_div MVal.nan x) = MVal.nan ∧
      (if mpfr_zero_p MVal.nan then MVal.nan else mpfr_div x MVal.nan) = MVal.nan) ∧
    (∀ x : MVal,
      mpfr_pow MVal.nan x = (if x = MVal.fin 0 then MVal.fin 1 else MVal.nan) ∧
      mpfr_pow x MVal.nan = (if x = MVal.fin 1 then MVal.fin 1 else MVal.nan)) ∧
    ((if mpfr_zero_p MVal.nan then MVal.nan else (mpfr_modf MVal.nan).1) = MVal.nan ∧
     ∀ q : ℚ,
       (if mpfr_zero_p (MVal.fin q) then MVal.nan else (mpfr_modf (MVal.fin q)).1) =
         (if q.num = 0 then MVal.nan else MVal.fin (truncQ q))) := by
  refine ⟨by decide, by decide, by decide, by decide, ?_, ?_, ?_, ?_, ?_⟩
  · intro x
    cases x <;> exact ⟨rfl, rfl, rfl, rfl, rfl, rfl⟩
  · intro x
    cases x with
    | nan => exact ⟨rfl, rfl⟩
    | inf s => exact ⟨rfl, rfl⟩
    | fin q =>
        refine ⟨?_, rfl⟩
        by_cases hq : q.num = 0 <;> simp [mpfr_zero_p, mpfr_div, hq]
  · intro x
    cases x with
    | nan => exact ⟨rfl, rfl⟩
    | inf s => exact ⟨rfl, rfl⟩
    | fin e =>
        constructor
        · by_cases he : e = 0
          · subst he; simp [mpfr_pow]
          · have hn : ¬ e.num = 0 := fun h => he (Rat.num_eq_zero.mp h)
            simp [mpfr_pow, hn, he]
        · rfl
  · rfl
  · intro q
    by_cases hq : q.num = 0 <;> simp [mpfr_zero_p, mpfr_modf, hq]

/-- C3, amended, witnessed at concrete operands. -/
theorem claim_C3_amended_witness :
    mpfr_add MVal.nan (MVal.fin 7) = MVal.nan ∧
    mpfr_pow MVal.nan (MVal.fin 0) = MVal.fin 1 := by
  constructor
  · exact (claim_C3_amended.2.2.2.2.1 (MVal.fin 7)).1
  · have h := (claim_C3_amended.2.2.2.2.2.2.1 (MVal.fin 0)).1
    simpa using h

/-- C4.  The claim says every valid decimal string round-trips (with `.`
and `,` interchangeable as decimal points): the tokenizer does fuse
`1,5` into a single Number token, but evaluation hands the raw lexeme to
`mpfr_set_str`, which accepts only `.`, so the statement evaluates to NaN
instead of the denoted value 3/2. -/
theorem claim_C4 :
    tokenize ("1,5".toList) = some [⟨TokenType.TOK_NUM, ['1', ',', '5'], false⟩] ∧
    decimal_value_spec ['1', ',', '5'] = some (mkRat 3 2) ∧
    runVal ("1,5") = some MVal.nan ∧
    some MVal.nan ≠ some (MVal.fin (mkRat 3 2)) := by decide

/-- C5, counterexample.  After inserting 39 distinct names into a fresh
table, `count = 39` already exceeds `0.6 * 64 = 38.4`, yet no resize has
happened: `capacity` is still 64, not 128 — the check fires before an
insert, not after. -/
theorem claim_C5_counterexample :
    (insertManyV 39).count = 39 ∧
    6 * (insertManyV 39).capacity < 10 * (insertManyV 39).count ∧
    (insertManyV 39).capacity = 64 := by decide

/-- C5, amended.  The resize fires on the first insert that begins with
`count` already above `0.6 * capacity`: inserts 1–39 keep capacity 64, the
40th insert performs exactly one resize doubling capacity to 128, and
afterwards each of the 40 names is retrievable with its last-assigned
value. -/
theorem claim_C5_amended :
    ((List.range 40).map vName).Nodup ∧
    (insertManyV 39).capacity = 64 ∧
    (insertManyV 40).capacity = 128 ∧
    (insertManyV 40).count = 40 ∧
    (∀ i ∈ List.range 40,
      symbol_table_get (insertManyV 40) (vName i) 3 = some (.fin (mkRat i 1))) := by
  decide

/-- C5, amended, witnessed at one concrete name. -/
theorem claim_C5_amended_witness :
    symbol_table_get (insertManyV 40) (vName 7) 3 = some (.fin (mkRat 7 1)) :=
  claim_C5_amended.2.2.2.2 7 (by decide)

/-- C6.  `a = 5` then `a` yields 5; `a = 5`, `a = a + 1`, `a` yields 6;
and the second assignment updates the binding in place — the table count
stays at 1 after both assignments. -/
theorem claim_C6 :
    (runLines symbol_table_create ["a = 5", "a"]).map Prod.fst = some (MVal.fin 5) ∧
    (runLines symbol_table_create ["a = 5", "a = a + 1", "a"]).map Prod.fst =
      some (MVal.fin 6) ∧
    (runLines symbol_table_create ["a = 5"]).map (fun p => p.2.count) = some 1 ∧
    (runLines symbol_table_create ["a = 5", "a = a + 1"]).map (fun p => p.2.count) =
      some 1 := by decide

/-- C7.  `2^3^2` parses to the right-associated tree `2^(3^2)` and
evaluates to 512, not 64. -/
theorem claim_C7 :
    (tokenize ("2^3^2".toList)).bind parse =
      some (.node ⟨TokenType.TOK_POWER, ['^'], false⟩
        (.node ⟨TokenType.TOK_NUM, ['2'], false⟩ .nil .nil)
        (.node ⟨TokenType.TOK_POWER, ['^'], false⟩
          (.node ⟨TokenType.TOK_NUM, ['3'], false⟩ .nil .nil)
          (.node ⟨TokenType.TOK_NUM, ['2'], false⟩ .nil .nil))) ∧
    runVal ("2^3^2") = some (MVal.fin 512) ∧
    some (MVal.fin 512) ≠ some (MVal.fin 64) := by decide

/-- The two-token lookahead `peek = TOK_VAR && peek_next = TOK_ASSING` of
`parse_statement`. -/
def isAssignLookahead : List Token → Bool
  | t1 :: t2 :: _ =>
      decide (t1.type = TokenType.TOK_VAR) && decide (t2.type = TokenType.TOK_ASSING)
  | _ => false

/-- C8.  Assignment is recognized only by the statement-level two-token
lookahead: without that shape `parse_statement` is exactly
`parse_expression`, `parse_primary` has no rule for a bare `=` (it fails
on any `TOK_ASSING`), and `a = (b = 3)` is rejected instead of producing
an AST. -/
theorem claim_C8 :
    (∀ (fuel : ℕ) (t : Token) (rest : List Token),
        t.type = TokenType.TOK_ASSING → parse_primary fuel (t :: rest) = none) ∧
    (∀ (fuel : ℕ) (ts : List Token),
        isAssignLookahead ts = false →
        parse_statement (fuel + 1) ts = parse_expression fuel ts) ∧
    (tokenize ("a = (b = 3)".toList)).bind parse = none := by
  refine ⟨?_, ?_, by decide⟩
  · intro fuel t rest h
    match fuel with
    | 0 => rfl
    | fuel + 1 =>
        rcases t with ⟨ty, lx, ng⟩
        simp only at h
        subst h
        rfl
  · intro fuel ts h
    match ts with
    | [] => rfl
    | [t1] => rfl
    | t1 :: t2 :: rest =>
        have hc : ¬(t1.type = TokenType.TOK_VAR ∧ t2.type = TokenType.TOK_ASSING) := by
          rintro ⟨h1, h2⟩
          simp [isAssignLookahead, h1, h2] at h
        simp only [parse_statement, if_neg hc]

/-- C8, witnessed at a concrete bare `=` and at a concrete
non-assignment-shaped token list. -/
theorem claim_C8_witness :
    parse_primary 1 [⟨TokenType.TOK_ASSING, ['='], false⟩] = none ∧
    parse_statement 1 [] = parse_expression 0 [] :=
  ⟨claim_C8.1 1 ⟨TokenType.TOK_ASSING, ['='], false⟩ [] rfl, claim_C8.2.1 0 [] rfl⟩

/-- C9.  `parse` returns whatever `parse_statement` produced without
demanding that all tokens were consumed: any successfully parsed leading
statement is returned and trailing tokens are ignored — on `2 3` the
result is the leaf `2`, with the second number left over and no error. -/
theorem claim_C9 :
    (∀ (ts : List Token) (ast : AST) (rest : List Token),
        parse_statement (pfuel ts) ts = some (ast, rest) → parse ts = some ast) ∧
    tokenize ("2 3".toList) =
      some [⟨TokenType.TOK_NUM, ['2'], false⟩, ⟨TokenType.TOK_NUM, ['3'], false⟩] ∧
    parse_statement
        (pfuel [(⟨TokenType.TOK_NUM, ['2'], false⟩ : Token), ⟨TokenType.TOK_NUM, ['3'], false⟩])
        [⟨TokenType.TOK_NUM, ['2'], false⟩, ⟨TokenType.TOK_NUM, ['3'], false⟩] =
      some (.node ⟨TokenType.TOK_NUM, ['2'], false⟩ .nil .nil,
        [⟨TokenType.TOK_NUM, ['3'], false⟩]) ∧
    parse [⟨TokenType.TOK_NUM, ['2'], false⟩, ⟨TokenType.TOK_NUM, ['3'], false⟩] =
      some (.node ⟨TokenType.TOK_NUM, ['2'], false⟩ .nil .nil) := by
  refine ⟨?_, by decide, by decide, by decide⟩
  intro ts ast rest h
  unfold parse
  rw [h]
  rfl

/-- C9, witnessed on the token list of `2 3`. -/
theorem claim_C9_witness :
    parse [⟨TokenType.TOK_NUM, ['2'], false⟩, ⟨TokenType.TOK_NUM, ['3'], false⟩] =
      some (.node ⟨TokenType.TOK_NUM, ['2'], false⟩ .nil .nil) :=
  claim_C9.1 _ _ [⟨TokenType.TOK_NUM, ['3'], false⟩] (by decide)

/-- C10.  A `-` in unary position whose following non-space character is
not a digit makes the scanner emit a Number token with empty lexeme and
the negative flag, and continue from those non-digit characters; the
evaluator turns that leaf into NaN (`mpfr_set_str` rejects the bare
`"-"`), so `-x` evaluates to NaN instead of negating `x`. -/
theorem claim_C10 :
    (∀ (acc : List Token) (rest : List Char),
        minusIsUnary acc = true → headNonDigit rest = true →
        ∀ fuel : ℕ,
          tokenizeLoop (fuel + 1) ('-' :: rest) acc =
            tokenizeLoop fuel (rest.dropWhile (fun d => d = ' '))
              (acc ++ [⟨TokenType.TOK_NUM, [], true⟩])) ∧
    (∀ st : SymbolTable,
        evaluate_node st (.node ⟨TokenType.TOK_NUM, [], true⟩ .nil .nil) =
          (some MVal.nan, st)) ∧
    runVal ("-x") = some MVal.nan := by
  refine ⟨?_, fun st => rfl, by decide⟩
  intro acc rest hu hd fuel
  obtain ⟨h1, h2⟩ := unary_scan_stops rest hd
  have hstep : tokenizeLoop (fuel + 1) ('-' :: rest) acc =
      if minusIsUnary acc then
        tokenizeLoop fuel ((rest.dropWhile (fun d => d = ' ')).dropWhile isDigitChar)
          (acc ++ [⟨TokenType.TOK_NUM,
            (rest.dropWhile (fun d => d = ' ')).takeWhile isDigitChar, true⟩])
      else tokenizeLoop fuel rest (acc ++ [⟨TokenType.TOK_SUB, ['-'], false⟩]) := rfl
  rw [hstep, hu, h1, h2]
  simp

/-- C10, witnessed on the input `-x`. -/
theorem claim_C10_witness :
    tokenizeLoop 3 ['-', 'x'] [] =
      tokenizeLoop 2 ['x'] [⟨TokenType.TOK_NUM, [], true⟩] ∧
    evaluate_node symbol_table_create
        (.node ⟨TokenType.TOK_NUM, [], true⟩ .nil .nil) =
      (some MVal.nan, symbol_table_create) :=
  ⟨claim_C10.1 [] ['x'] rfl rfl 2, claim_C10.2.1 symbol_table_create⟩

end MathInterp
